import Mathlib

/-!
Verification of the `example_nth_power` circuits (study_halo2).

The repository builds a halo2 multiplication-chain circuit proving `y = x ^ (N+1)`.
We embed the circuit construction (`configure`), the witness assignment engine
(`intial_assign`, `subsequent_assign`, the chain loop of `synthesize`), the public
input binder (`expose_public`), and the artifact-caching logic of the benchmark
harness, and prove the spec's claims about them.

Two chip variants exist in the source:
* `Ex1` — `src/example.rs`: bootstrap row reads both operands from the instance
  column (slots 0 and 1), runs 3 chain steps, binds the output at slot 2.
* `NthPow` — `benches/example1.rs`, `benches/example2.rs`, `src/example2.rs`:
  bootstrap row fixes the left operand to the constant 1 and reads the multiplier
  from instance slot 0; the chain length is 11 (benches) or 1 (`src/example2.rs`);
  the output is bound at slot 1.

Regions are one row each and the `SimpleFloorPlanner` places them consecutively,
so region `k` is absolute row `k`; a cell is addressed by column role and row.
-/

namespace StudyHalo2

/-- The three advice-column roles of the chip: left operand, right operand, product. -/
inductive Col where
  | colA
  | colB
  | colC
deriving DecidableEq

/-- A cell eligible for copy constraints: an advice cell (column role and absolute
row) or an instance-column cell (public-input slot). -/
inductive CellRef where
  | advice (c : Col) (row : Nat)
  | inst (slot : Nat)
deriving DecidableEq

/-- One trace row: the three advice values and the selector flag at that row. -/
structure Row (F : Type) where
  a : F
  b : F
  c : F
  sel : Bool
deriving DecidableEq

/-- Value of a row at a given advice-column role. -/
def Row.getCol {F : Type} (r : Row F) : Col → F
  | Col.colA => r.a
  | Col.colB => r.b
  | Col.colC => r.c

/-- Mirror of halo2's `AssignedCell`: the assigned value together with the cell
location it lives at. -/
structure AssignedCell (F : Type) where
  val : F
  cell : CellRef
deriving DecidableEq

/-- The state accumulated during synthesis: the assigned rows (row `i` of the list
is absolute row `i`; its `sel` field records whether the selector was enabled
there), the declared copy constraints, and the declared constant constraints
(a cell pinned to a fixed field value via the constant column). -/
@[ext]
structure SynthState (F : Type) where
  rows : List (Row F)
  copies : List (CellRef × CellRef)
  consts : List (CellRef × F)
deriving DecidableEq

/-- The empty synthesis state, before any region is assigned. -/
def SynthState.empty (F : Type) : SynthState F := ⟨[], [], []⟩

/-- Modelled from the spec: the halo2 layouter's instance-column access is not part
of `src/`. Per the spec, the public input vector's length and slot semantics are
fixed by the Circuit Descriptor, and reading a cell that is not available is a
fatal assignment error, so reading a slot outside the supplied vector fails. -/
def instance_slot_value {F : Type} (pub : List F) (slot : Nat) : Option F :=
  pub[slot]?

/-- Modelled from the spec: halo2's `Layouter::constrain_instance` is not part of
`src/`. It declares an equality (copy) constraint between a cell and the
instance-column cell at a slot; per the spec the slot must exist in the supplied
public input vector, so an out-of-range slot is an error. -/
def constrain_instance {F : Type} (pub : List F) (cref : CellRef) (slot : Nat)
    (st : SynthState F) : Option (SynthState F) :=
  if slot < pub.length then
    some { st with copies := st.copies ++ [(cref, CellRef.inst slot)] }
  else
    none

/-- Embedding of `PowerByNumChip::subsequent_assign` (identical in all four source
files): in a fresh one-row region, enable the selector, copy the previous product
cell into `col_a`, copy the multiplier cell into `col_b` (declaring the two copy
constraints), and assign `col_c := prev_b * prev_c`; returns the new product cell. -/
def subsequent_assign {F : Type} [CommRing F] (prev_b prev_c : AssignedCell F)
    (st : SynthState F) : AssignedCell F × SynthState F :=
  let r := st.rows.length
  let res_c : AssignedCell F := ⟨prev_b.val * prev_c.val, CellRef.advice Col.colC r⟩
  (res_c,
    { rows := st.rows ++ [⟨prev_c.val, prev_b.val, prev_b.val * prev_c.val, true⟩],
      copies := st.copies ++
        [(CellRef.advice Col.colA r, prev_c.cell),
         (CellRef.advice Col.colB r, prev_b.cell)],
      consts := st.consts })

/-- The `for` loop of `synthesize`: `k` iterations of `subsequent_assign`, feeding
each step's product cell back in as `prev_c` while `prev_b` stays the cell produced
by the bootstrap row (the source never rebinds `prev_b`). -/
def chain_loop {F : Type} [CommRing F] (prev_b : AssignedCell F) :
    Nat → AssignedCell F → SynthState F → AssignedCell F × SynthState F
  | 0, prev_c, st => (prev_c, st)
  | k + 1, prev_c, st =>
      let step := subsequent_assign prev_b prev_c st
      chain_loop prev_b k step.1 step.2

/-- Embedding of `PowerByNumChip::expose_public` (identical in all four source
files): declare an equality constraint between the given cell and the
instance-column cell at the target slot. -/
def expose_public {F : Type} (pub : List F) (cell : AssignedCell F) (slot : Nat)
    (st : SynthState F) : Option (SynthState F) :=
  constrain_instance pub cell.cell slot st

/-- A gate expression as registered by `create_gate`: queries of the selector and of
the advice columns at the current rotation, combined with ring operations. -/
inductive GateExpr where
  | selq
  | adv (c : Col)
  | mulE (e1 e2 : GateExpr)
  | subE (e1 e2 : GateExpr)
deriving DecidableEq

/-- Evaluation of a gate expression at a row (the selector evaluates to 1 when
enabled at the row and 0 otherwise). -/
def GateExpr.eval {F : Type} [CommRing F] (row : Row F) : GateExpr → F
  | GateExpr.selq => if row.sel then 1 else 0
  | GateExpr.adv c => row.getCol c
  | GateExpr.mulE e1 e2 => e1.eval row * e2.eval row
  | GateExpr.subE e1 e2 => e1.eval row - e2.eval row

/-- The single gate polynomial registered by `configure` in every variant:
`s * (a * b - c)`. -/
def mul_gate : GateExpr :=
  GateExpr.mulE GateExpr.selq
    (GateExpr.subE (GateExpr.mulE (GateExpr.adv Col.colA) (GateExpr.adv Col.colB))
      (GateExpr.adv Col.colC))

/-- A column handle as allocated by the constraint-system builder. -/
inductive ColumnId where
  | adviceCol (i : Nat)
  | instanceCol (i : Nat)
  | fixedCol (i : Nat)
deriving DecidableEq

/-- The constraint-system builder state mutated by `configure`: column counters,
the columns enabled for equality, the fixed columns enabled for constants, and the
registered gates (name and polynomial list). -/
structure MetaState where
  num_advice : Nat
  num_fixed : Nat
  num_instance : Nat
  num_selectors : Nat
  equality_enabled : List ColumnId
  constants_enabled : List ColumnId
  gates : List (String × List GateExpr)
deriving DecidableEq

/-- A fresh `ConstraintSystem::default()`, as handed to `Circuit::configure`. -/
def MetaState.empty : MetaState := ⟨0, 0, 0, 0, [], [], []⟩

/-- Whether a cell reference resolves to a value: an advice cell resolves in the
trace rows, an instance cell in the public input vector. -/
def refVal {F : Type} (rows : List (Row F)) (pub : List F) : CellRef → Option F
  | CellRef.advice c r => (rows[r]?).map (fun row => row.getCol c)
  | CellRef.inst slot => pub[slot]?

/-- A copy constraint holds when both referenced cells resolve to the same value. -/
def copy_ok {F : Type} (rows : List (Row F)) (pub : List F)
    (p : CellRef × CellRef) : Prop :=
  ∃ v, refVal rows pub p.1 = some v ∧ refVal rows pub p.2 = some v

/-- The produced trace together with a public input vector satisfies the constraint
system: the `mul` gate vanishes at every assigned row, every declared copy
constraint relates cells of equal value, and every constant constraint pins its
cell to the declared constant. -/
def satisfied {F : Type} [CommRing F] (st : SynthState F) (pub : List F) : Prop :=
  (∀ row ∈ st.rows, GateExpr.eval row mul_gate = 0) ∧
  (∀ p ∈ st.copies, copy_ok st.rows pub p) ∧
  (∀ p ∈ st.consts, refVal st.rows pub p.1 = some p.2)

/-- The modulus of the `pasta` curves' field `Fp` used by `benches/example1.rs`. -/
def pasta_p : Nat :=
  28948022309329048855892746252171976963363056481941560715954676764349967630337

/-- The concrete benchmark field. -/
abbrev Fp := ZMod pasta_p

namespace NthPow

/-- The column handles returned by `configure` in the constant-bootstrap variant
(`benches/example1.rs`, `benches/example2.rs`, `src/example2.rs`). -/
structure PowerByNumConfig where
  col_a : ColumnId
  col_b : ColumnId
  col_c : ColumnId
  selector : Nat
  inst_col : ColumnId
  constant : ColumnId
deriving DecidableEq

/-- Embedding of `PowerByNumChip::configure` of the constant-bootstrap variant:
allocates three advice columns, a selector, an instance column and a fixed column,
enables equality on the advice and instance columns, enables the fixed column for
constants (halo2's `enable_constant` also enables equality on it), and registers
the single `mul` gate. -/
def configure (meta : MetaState) : PowerByNumConfig × MetaState :=
  let col_a := ColumnId.adviceCol meta.num_advice
  let col_b := ColumnId.adviceCol (meta.num_advice + 1)
  let col_c := ColumnId.adviceCol (meta.num_advice + 2)
  let selector := meta.num_selectors
  let inst_col := ColumnId.instanceCol meta.num_instance
  let constant := ColumnId.fixedCol meta.num_fixed
  (⟨col_a, col_b, col_c, selector, inst_col, constant⟩,
   { num_advice := meta.num_advice + 3,
     num_fixed := meta.num_fixed + 1,
     num_instance := meta.num_instance + 1,
     num_selectors := meta.num_selectors + 1,
     equality_enabled := meta.equality_enabled ++ [col_a, col_b, col_c, inst_col, constant],
     constants_enabled := meta.constants_enabled ++ [constant],
     gates := meta.gates ++ [("mul", [mul_gate])] })

/-- Embedding of `PowerByNumChip::intial_assign` of the constant-bootstrap variant:
in a fresh one-row region, enable the selector, assign `col_a` from the constant 1
(recording a constant constraint, as `assign_advice_from_constant` does), assign
`col_b` from instance slot 0 (recording the copy constraint to the instance cell),
and assign `col_c := init_a * init_b`; returns the three assigned cells. -/
def intial_assign {F : Type} [CommRing F] (pub : List F) (st : SynthState F) :
    Option (AssignedCell F × AssignedCell F × AssignedCell F × SynthState F) :=
  let r := st.rows.length
  match instance_slot_value pub 0 with
  | none => none
  | some x =>
      let init_a : AssignedCell F := ⟨1, CellRef.advice Col.colA r⟩
      let init_b : AssignedCell F := ⟨x, CellRef.advice Col.colB r⟩
      let init_c : AssignedCell F := ⟨init_a.val * init_b.val, CellRef.advice Col.colC r⟩
      some (init_a, init_b, init_c,
        { rows := st.rows ++ [⟨init_a.val, init_b.val, init_c.val, true⟩],
          copies := st.copies ++ [(init_b.cell, CellRef.inst 0)],
          consts := st.consts ++ [(init_a.cell, 1)] })

/-- Embedding of `TestCircuit::synthesize` of the constant-bootstrap variant with
`steps` chain iterations (`for _i in 1..12` is 11 iterations in the benches,
`for _i in 1..2` is 1 iteration in `src/example2.rs`): bootstrap row, chain loop,
then binding of the final product cell at instance slot 1. -/
def synthesize {F : Type} [CommRing F] (steps : Nat) (pub : List F) :
    Option (SynthState F) :=
  match intial_assign pub (SynthState.empty F) with
  | none => none
  | some (_, prev_b, prev_c, st) =>
      let res := chain_loop prev_b steps prev_c st
      expose_public pub res.1 1 res.2

end NthPow

namespace Ex1

/-- The column handles returned by `configure` in `src/example.rs` (no constant
column in this variant). -/
structure PowerByNumConfig where
  col_a : ColumnId
  col_b : ColumnId
  col_c : ColumnId
  selector : Nat
  inst_col : ColumnId
deriving DecidableEq

/-- Embedding of `PowerByNumChip::configure` from `src/example.rs`: allocates three
advice columns, a selector and an instance column, enables equality on all four,
and registers the single `mul` gate; no other constraint is registered. -/
def configure (meta : MetaState) : PowerByNumConfig × MetaState :=
  let col_a := ColumnId.adviceCol meta.num_advice
  let col_b := ColumnId.adviceCol (meta.num_advice + 1)
  let col_c := ColumnId.adviceCol (meta.num_advice + 2)
  let selector := meta.num_selectors
  let inst_col := ColumnId.instanceCol meta.num_instance
  (⟨col_a, col_b, col_c, selector, inst_col⟩,
   { num_advice := meta.num_advice + 3,
     num_fixed := meta.num_fixed,
     num_instance := meta.num_instance + 1,
     num_selectors := meta.num_selectors + 1,
     equality_enabled := meta.equality_enabled ++ [col_a, col_b, col_c, inst_col],
     constants_enabled := meta.constants_enabled,
     gates := meta.gates ++ [("mul", [mul_gate])] })

/-- Embedding of `PowerByNumChip::intial_assign` from `src/example.rs`: in a fresh
one-row region, enable the selector, assign `col_a` from instance slot 0 and
`col_b` from instance slot 1 (each recording a copy constraint to its instance
cell), and assign `col_c := init_a * init_b`; returns the three assigned cells. -/
def intial_assign {F : Type} [CommRing F] (pub : List F) (st : SynthState F) :
    Option (AssignedCell F × AssignedCell F × AssignedCell F × SynthState F) :=
  let r := st.rows.length
  match instance_slot_value pub 0 with
  | none => none
  | some x0 =>
      match instance_slot_value pub 1 with
      | none => none
      | some x1 =>
          let init_a : AssignedCell F := ⟨x0, CellRef.advice Col.colA r⟩
          let init_b : AssignedCell F := ⟨x1, CellRef.advice Col.colB r⟩
          let init_c : AssignedCell F :=
            ⟨init_a.val * init_b.val, CellRef.advice Col.colC r⟩
          some (init_a, init_b, init_c,
            { rows := st.rows ++ [⟨init_a.val, init_b.val, init_c.val, true⟩],
              copies := st.copies ++
                [(init_a.cell, CellRef.inst 0), (init_b.cell, CellRef.inst 1)],
              consts := st.consts })

/-- Embedding of `TestCircuit::synthesize` from `src/example.rs`: bootstrap row,
three chain iterations (`for _i in 0..3`; `prev_a` is rebound in the loop but
never contributes to the assignment), then binding of the final product cell at
instance slot 2. -/
def synthesize {F : Type} [CommRing F] (pub : List F) : Option (SynthState F) :=
  match intial_assign pub (SynthState.empty F) with
  | none => none
  | some (_, prev_b, prev_c, st) =>
      let res := chain_loop prev_b 3 prev_c st
      expose_public pub res.1 2 res.2

end Ex1

/-- Row `i` of the constant-bootstrap trace on multiplier `x`: `a = x ^ i`,
`b = x`, `c = x ^ (i + 1)`, selector enabled. -/
def pow_row {F : Type} [CommRing F] (x : F) (i : Nat) : Row F :=
  ⟨x ^ i, x, x ^ (i + 1), true⟩

/-- The copy constraints declared by the first `j` chain steps: each step's `col_a`
cell is tied to the previous row's product cell, and its `col_b` cell is tied to
the bootstrap row's `col_b` cell. -/
def step_copies (j : Nat) : List (CellRef × CellRef) :=
  (List.range j).flatMap (fun i =>
    [(CellRef.advice Col.colA (i + 1), CellRef.advice Col.colC i),
     (CellRef.advice Col.colB (i + 1), CellRef.advice Col.colB 0)])

/-- Closed form of the synthesis state after the bootstrap row and `j` chain steps
of the constant-bootstrap variant on multiplier `x`. -/
def pow_state {F : Type} [CommRing F] (x : F) (j : Nat) : SynthState F :=
  { rows := (List.range (j + 1)).map (pow_row x),
    copies := (CellRef.advice Col.colB 0, CellRef.inst 0) :: step_copies j,
    consts := [(CellRef.advice Col.colA 0, 1)] }

/-- Closed form of the full synthesis output of the constant-bootstrap variant:
`pow_state` plus the final public binding of the last product cell at slot 1. -/
def final_state {F : Type} [CommRing F] (x : F) (steps : Nat) : SynthState F :=
  { pow_state x steps with
    copies := ((CellRef.advice Col.colB 0, CellRef.inst 0) :: step_copies steps) ++
      [(CellRef.advice Col.colC steps, CellRef.inst 1)] }

lemma step_copies_succ (j : Nat) :
    step_copies (j + 1) = step_copies j ++
      [(CellRef.advice Col.colA (j + 1), CellRef.advice Col.colC j),
       (CellRef.advice Col.colB (j + 1), CellRef.advice Col.colB 0)] := by
  simp [step_copies, List.range_succ]

lemma pow_state_rows_length {F : Type} [CommRing F] (x : F) (j : Nat) :
    (pow_state x j).rows.length = j + 1 := by
  simp [pow_state]

/-- Invariant of the chain loop of the constant-bootstrap variant: starting after
`j` steps with the bootstrap `col_b` cell as multiplier and the running product
`x ^ (j + 1)`, `k` further iterations produce the state after `j + k` steps and the
product cell `x ^ (j + k + 1)`. -/
lemma chain_loop_pow {F : Type} [CommRing F] (x : F) :
    ∀ (k j : Nat),
      chain_loop ⟨x, CellRef.advice Col.colB 0⟩ k
          ⟨x ^ (j + 1), CellRef.advice Col.colC j⟩ (pow_state x j) =
        (⟨x ^ (j + k + 1), CellRef.advice Col.colC (j + k)⟩, pow_state x (j + k))
  | 0, j => by simp [chain_loop]
  | k + 1, j => by
      have hstep : subsequent_assign (F := F) ⟨x, CellRef.advice Col.colB 0⟩
          ⟨x ^ (j + 1), CellRef.advice Col.colC j⟩ (pow_state x j) =
          (⟨x ^ (j + 1 + 1), CellRef.advice Col.colC (j + 1)⟩, pow_state x (j + 1)) := by
        simp [subsequent_assign, pow_state, step_copies_succ, List.range_succ, pow_row,
          pow_succ, mul_comm]
      have ih := chain_loop_pow x k (j + 1)
      have harith : j + 1 + k = j + (k + 1) := by omega
      rw [harith] at ih
      simp only [chain_loop]
      rw [hstep]
      exact ih

/-- The bootstrap row of the constant-bootstrap variant, in closed form. -/
lemma nthpow_intial_assign_eq {F : Type} [CommRing F] (pub : List F) (x : F)
    (h0 : pub[0]? = some x) :
    NthPow.intial_assign pub (SynthState.empty F) =
      some (⟨1, CellRef.advice Col.colA 0⟩, ⟨x, CellRef.advice Col.colB 0⟩,
        ⟨x ^ 1, CellRef.advice Col.colC 0⟩, pow_state x 0) := by
  simp [NthPow.intial_assign, instance_slot_value, h0, SynthState.empty, pow_state,
    step_copies, pow_row, List.range_succ]

/-- Closed form of the full synthesis output of the constant-bootstrap variant. -/
lemma nthpow_synthesize_eq {F : Type} [CommRing F] (steps : Nat) (pub : List F)
    (x : F) (h0 : pub[0]? = some x) (h1 : 1 < pub.length) :
    NthPow.synthesize steps pub = some (final_state x steps) := by
  have hb := nthpow_intial_assign_eq pub x h0
  have h2 := chain_loop_pow x steps 0
  simp only [Nat.zero_add] at h2
  simp only [NthPow.synthesize, hb]
  rw [h2]
  simp [expose_public, constrain_instance, h1, final_state, pow_state]

lemma final_state_rows {F : Type} [CommRing F] (x : F) (steps : Nat) :
    (final_state x steps).rows = (List.range (steps + 1)).map (pow_row x) := rfl

lemma final_state_consts {F : Type} [CommRing F] (x : F) (steps : Nat) :
    (final_state x steps).consts = [(CellRef.advice Col.colA 0, (1 : F))] := rfl

lemma final_state_rows_get {F : Type} [CommRing F] (x : F) (steps r : Nat)
    (hr : r < steps + 1) :
    (final_state x steps).rows[r]? = some (pow_row x r) := by
  simp [final_state_rows, List.getElem?_map, List.getElem?_range, hr]

lemma refVal_final_advice {F : Type} [CommRing F] (x : F) (pub : List F)
    (steps r : Nat) (c : Col) (hr : r < steps + 1) :
    refVal (final_state x steps).rows pub (CellRef.advice c r) =
      some ((pow_row x r).getCol c) := by
  simp [refVal, final_state_rows_get x steps r hr]

/-- Row `i` of the instance-bootstrap trace of `src/example.rs` on public operands
`x0` (slot 0) and `x1` (slot 1). -/
def ex1_row {F : Type} [CommRing F] (x0 x1 : F) (i : Nat) : Row F :=
  ⟨x0 * x1 ^ i, x1, x0 * x1 ^ (i + 1), true⟩

/-- Closed form of the `src/example.rs` synthesis state after the bootstrap row
and `j` chain steps. -/
def ex1_state {F : Type} [CommRing F] (x0 x1 : F) (j : Nat) : SynthState F :=
  { rows := (List.range (j + 1)).map (ex1_row x0 x1),
    copies := (CellRef.advice Col.colA 0, CellRef.inst 0) ::
      (CellRef.advice Col.colB 0, CellRef.inst 1) :: step_copies j,
    consts := [] }

/-- Closed form of the full `src/example.rs` synthesis output: 3 chain steps and
the final public binding at slot 2. -/
def ex1_final_state {F : Type} [CommRing F] (x0 x1 : F) : SynthState F :=
  { ex1_state x0 x1 3 with
    copies := ((CellRef.advice Col.colA 0, CellRef.inst 0) ::
      (CellRef.advice Col.colB 0, CellRef.inst 1) :: step_copies 3) ++
      [(CellRef.advice Col.colC 3, CellRef.inst 2)] }

/-- Chain-loop invariant for the instance-bootstrap variant: the running product
after `j + k` steps is `x0 * x1 ^ (j + k + 1)`. -/
lemma chain_loop_ex1 {F : Type} [CommRing F] (x0 x1 : F) :
    ∀ (k j : Nat),
      chain_loop ⟨x1, CellRef.advice Col.colB 0⟩ k
          ⟨x0 * x1 ^ (j + 1), CellRef.advice Col.colC j⟩ (ex1_state x0 x1 j) =
        (⟨x0 * x1 ^ (j + k + 1), CellRef.advice Col.colC (j + k)⟩,
          ex1_state x0 x1 (j + k))
  | 0, j => by simp [chain_loop]
  | k + 1, j => by
      have hstep : subsequent_assign (F := F) ⟨x1, CellRef.advice Col.colB 0⟩
          ⟨x0 * x1 ^ (j + 1), CellRef.advice Col.colC j⟩ (ex1_state x0 x1 j) =
          (⟨x0 * x1 ^ (j + 1 + 1), CellRef.advice Col.colC (j + 1)⟩,
            ex1_state x0 x1 (j + 1)) := by
        simp [subsequent_assign, ex1_state, step_copies_succ, List.range_succ, ex1_row,
          pow_succ, mul_comm, mul_assoc, mul_left_comm]
      have ih := chain_loop_ex1 x0 x1 k (j + 1)
      have harith : j + 1 + k = j + (k + 1) := by omega
      rw [harith] at ih
      simp only [chain_loop]
      rw [hstep]
      exact ih

/-- The bootstrap row of `src/example.rs`, in closed form. -/
lemma ex1_intial_assign_eq {F : Type} [CommRing F] (pub : List F) (x0 x1 : F)
    (h0 : pub[0]? = some x0) (h1 : pub[1]? = some x1) :
    Ex1.intial_assign pub (SynthState.empty F) =
      some (⟨x0, CellRef.advice Col.colA 0⟩, ⟨x1, CellRef.advice Col.colB 0⟩,
        ⟨x0 * x1 ^ 1, CellRef.advice Col.colC 0⟩, ex1_state x0 x1 0) := by
  simp [Ex1.intial_assign, instance_slot_value, h0, h1, SynthState.empty, ex1_state,
    step_copies, ex1_row, List.range_succ]

/-- Closed form of the full `src/example.rs` synthesis output. -/
lemma ex1_synthesize_eq {F : Type} [CommRing F] (pub : List F) (x0 x1 : F)
    (h0 : pub[0]? = some x0) (h1 : pub[1]? = some x1) (h2 : 2 < pub.length) :
    Ex1.synthesize pub = some (ex1_final_state x0 x1) := by
  have hb := ex1_intial_assign_eq pub x0 x1 h0 h1
  have hc := chain_loop_ex1 x0 x1 3 0
  simp only [Nat.zero_add] at hc
  simp only [Ex1.synthesize, hb]
  rw [hc]
  simp [expose_public, constrain_instance, h2, ex1_final_state, ex1_state]

/-- Inversion: a successful constant-bootstrap synthesis determines the public
input's head, a length bound, and the closed-form output state. -/
lemma nthpow_synthesize_inv {F : Type} [CommRing F] (steps : Nat) (pub : List F)
    (st : SynthState F) (h : NthPow.synthesize steps pub = some st) :
    ∃ x, pub[0]? = some x ∧ 1 < pub.length ∧ st = final_state x steps := by
  cases h0 : pub[0]? with
  | none =>
      exfalso
      simp [NthPow.synthesize, NthPow.intial_assign, instance_slot_value, h0] at h
  | some x =>
      have hb := nthpow_intial_assign_eq pub x h0
      have h2 := chain_loop_pow x steps 0
      simp only [Nat.zero_add] at h2
      simp only [NthPow.synthesize, hb] at h
      rw [h2] at h
      simp only [expose_public, constrain_instance] at h
      split at h
      case isTrue h1 =>
          refine ⟨x, rfl, h1, ?_⟩
          rw [← Option.some.inj h]
          simp [final_state, pow_state]
      case isFalse h1 => exact Option.noConfusion h

/-- Inversion: a successful `src/example.rs` synthesis determines the first two
public inputs, a length bound, and the closed-form output state. -/
lemma ex1_synthesize_inv {F : Type} [CommRing F] (pub : List F)
    (st : SynthState F) (h : Ex1.synthesize pub = some st) :
    ∃ x0 x1, pub[0]? = some x0 ∧ pub[1]? = some x1 ∧ 2 < pub.length ∧
      st = ex1_final_state x0 x1 := by
  cases h0 : pub[0]? with
  | none =>
      exfalso
      simp [Ex1.synthesize, Ex1.intial_assign, instance_slot_value, h0] at h
  | some x0 =>
      cases h1 : pub[1]? with
      | none =>
          exfalso
          simp [Ex1.synthesize, Ex1.intial_assign, instance_slot_value, h0, h1] at h
      | some x1 =>
          have hb := ex1_intial_assign_eq pub x0 x1 h0 h1
          have hc := chain_loop_ex1 x0 x1 3 0
          simp only [Nat.zero_add] at hc
          simp only [Ex1.synthesize, hb] at h
          rw [hc] at h
          simp only [expose_public, constrain_instance] at h
          split at h
          case isTrue h2 =>
              refine ⟨x0, x1, rfl, rfl, h2, ?_⟩
              rw [← Option.some.inj h]
              simp [ex1_final_state, ex1_state]
          case isFalse h2 => exact Option.noConfusion h

/-- The `mul` gate vanishes at every row of the constant-bootstrap trace. -/
lemma final_state_gates_ok {F : Type} [CommRing F] (x : F) (steps : Nat) :
    ∀ row ∈ (final_state x steps).rows, GateExpr.eval row mul_gate = 0 := by
  intro row hrow
  rw [final_state_rows] at hrow
  obtain ⟨i, _, rfl⟩ := List.mem_map.mp hrow
  simp [pow_row, mul_gate, GateExpr.eval, Row.getCol, pow_succ]

/-- The constant constraint of the constant-bootstrap trace pins `col_a` of the
bootstrap row to the value 1. -/
lemma final_state_consts_ok {F : Type} [CommRing F] (x : F) (steps : Nat)
    (pub : List F) :
    ∀ p ∈ (final_state x steps).consts,
      refVal (final_state x steps).rows pub p.1 = some p.2 := by
  intro p hp
  rw [final_state_consts, List.mem_singleton] at hp
  subst hp
  rw [refVal_final_advice x pub steps 0 Col.colA (by omega)]
  simp [pow_row, Row.getCol]

/-- Every copy constraint of the constant-bootstrap trace other than the final
public binding relates cells of equal value, for any public input vector of the
form `[x, y]`. -/
lemma final_state_internal_copies_ok {F : Type} [CommRing F] (x : F) (steps : Nat)
    (y : F) :
    ∀ p ∈ (CellRef.advice Col.colB 0, CellRef.inst 0) :: step_copies steps,
      copy_ok (final_state x steps).rows [x, y] p := by
  intro p hp
  rcases List.mem_cons.mp hp with rfl | hp
  · refine ⟨x, ?_, ?_⟩
    · rw [refVal_final_advice x _ steps 0 Col.colB (by omega)]
      simp [pow_row, Row.getCol]
    · simp [refVal]
  · simp only [step_copies, List.mem_flatMap, List.mem_range, List.mem_cons,
      List.mem_singleton, List.not_mem_nil, or_false] at hp
    obtain ⟨i, hi, hp | hp⟩ := hp <;> subst hp
    · refine ⟨x ^ (i + 1), ?_, ?_⟩
      · rw [refVal_final_advice x _ steps (i + 1) Col.colA (by omega)]
        simp [pow_row, Row.getCol]
      · rw [refVal_final_advice x _ steps i Col.colC (by omega)]
        simp [pow_row, Row.getCol]
    · refine ⟨x, ?_, ?_⟩
      · rw [refVal_final_advice x _ steps (i + 1) Col.colB (by omega)]
        simp [pow_row, Row.getCol]
      · rw [refVal_final_advice x _ steps 0 Col.colB (by omega)]
        simp [pow_row, Row.getCol]

/-- The final public binding of the constant-bootstrap trace relates cells of
equal value exactly when the supplied expected output is `x ^ (steps + 1)`. -/
lemma final_state_binding_iff {F : Type} [CommRing F] (x y : F) (steps : Nat) :
    copy_ok (final_state x steps).rows [x, y]
      (CellRef.advice Col.colC steps, CellRef.inst 1) ↔ y = x ^ (steps + 1) := by
  constructor
  · rintro ⟨v, h1, h2⟩
    rw [refVal_final_advice x [x, y] steps steps Col.colC (Nat.lt_succ_self steps)]
      at h1
    simp only [pow_row, Row.getCol, Option.some.injEq] at h1
    simp only [refVal, List.getElem?_cons_succ, List.getElem?_cons_zero,
      Option.some.injEq] at h2
    rw [h2, ← h1]
  · rintro rfl
    refine ⟨x ^ (steps + 1), ?_, ?_⟩
    · rw [refVal_final_advice x _ steps steps Col.colC (Nat.lt_succ_self steps)]
      simp [pow_row, Row.getCol]
    · simp [refVal]

/-- Shape of a synthesized circuit, as fixed by key generation: row count,
selector layout, copy constraints and constant constraints, but not the advice
values. -/
def circuit_shape {F : Type} (st : SynthState F) :
    Nat × List Bool × List (CellRef × CellRef) × List (CellRef × F) :=
  (st.rows.length, st.rows.map Row.sel, st.copies, st.consts)

/-- State of a cached artifact file on disk as seen by the benchmark harness. -/
inductive ArtifactFile where
  | absent
  | corrupt
  | wellFormed
deriving DecidableEq

/-- Whether `File::open` succeeds on the artifact path (it succeeds whenever the
file exists, corrupt or not). -/
def file_open_ok : ArtifactFile → Bool
  | ArtifactFile.absent => false
  | ArtifactFile.corrupt => true
  | ArtifactFile.wellFormed => true

/-- Whether deserialization (`ParamsIPA::read`) succeeds on the file's bytes. -/
def params_read_ok : ArtifactFile → Bool
  | ArtifactFile.wellFormed => true
  | ArtifactFile.absent => false
  | ArtifactFile.corrupt => false

/-- Embedding of the setup-parameter caching in `bench_example` of
`benches/example2.rs` (lines 200-216): if `File::open` fails, fresh params are
generated and written; then the file is opened and deserialized, each of these
steps fatal (`expect`) on failure. Returns the file state that was loaded and
whether a regeneration happened; `none` models the fatal `expect` panic. -/
def load_or_gen_params (f : ArtifactFile) : Option (ArtifactFile × Bool) :=
  let f1 := if file_open_ok f then f else ArtifactFile.wellFormed
  let regenerated := !file_open_ok f
  if file_open_ok f1 then
    if params_read_ok f1 then some (f1, regenerated) else none
  else none

/-- Embedding of the proof caching in `bench_example` of `benches/example2.rs`
(lines 251-272): if `File::open` fails, a proof is created and written; then the
file's raw bytes are read back (`read_to_end` succeeds on arbitrary bytes — no
deserialization validates them before verification). -/
def load_or_gen_proof (f : ArtifactFile) : Option (ArtifactFile × Bool) :=
  let f1 := if file_open_ok f then f else ArtifactFile.wellFormed
  let regenerated := !file_open_ok f
  if file_open_ok f1 then some (f1, regenerated) else none

/-- Shapes of two constant-bootstrap synthesis outputs agree regardless of the
public inputs: the advice values are the only input-dependent part. -/
lemma circuit_shape_final_state {F : Type} [CommRing F] (a b : F) (steps : Nat) :
    circuit_shape (final_state a steps) = circuit_shape (final_state b steps) := by
  simp [circuit_shape, final_state, pow_state, List.map_map, Function.comp, pow_row]

/-- The contract of the constant-bootstrap `intial_assign`, as stated by the spec:
left cell is the literal constant 1 (with a constant constraint), right cell holds
the public input from slot 0 (with a copy constraint to the instance cell),
product cell holds `left * right` computed in-trace, the selector is active at
row 0, and the three cells are returned. -/
def bootstrap_spec (F : Type) [CommRing F] (pub : List F) (x : F) : Prop :=
  ∃ a b c st,
    NthPow.intial_assign pub (SynthState.empty F) = some (a, b, c, st) ∧
    a.val = 1 ∧ a.cell = CellRef.advice Col.colA 0 ∧
    (CellRef.advice Col.colA 0, (1 : F)) ∈ st.consts ∧
    b.val = x ∧ b.cell = CellRef.advice Col.colB 0 ∧
    (CellRef.advice Col.colB 0, CellRef.inst 0) ∈ st.copies ∧
    c.val = a.val * b.val ∧ c.cell = CellRef.advice Col.colC 0 ∧
    st.rows = [⟨1, x, 1 * x, true⟩]

/-- The chain-step wiring that actually holds in the code: row `i`'s left cell is
copy-constrained to row `i - 1`'s product cell, row `i`'s right cell is
copy-constrained to the bootstrap row's right cell, and the multiplier in the
right column is identical across all rows and equals the bootstrap public input. -/
def chain_wiring_spec (F : Type) [CommRing F] (x y : F) (i : Nat) : Prop :=
  NthPow.synthesize 11 [x, y] = some (final_state x 11) ∧
  (CellRef.advice Col.colA i, CellRef.advice Col.colC (i - 1)) ∈
    (final_state x 11).copies ∧
  (CellRef.advice Col.colB i, CellRef.advice Col.colB 0) ∈
    (final_state x 11).copies ∧
  (∀ r ∈ (final_state x 11).rows, r.b = x) ∧
  ((final_state x 11).rows[0]?).map Row.b = some x

/-- C1: for the canonical benchmark circuit (11 chain-step rows after the
bootstrap row) the engine produces a 12-row trace whose final product cell holds
`x ^ 12`, where `x` is the field element at public-input slot 0, and binds that
cell to the public output slot; concretely over the pasta field with `x = 2` the
final product cell holds 4096. -/
theorem claim_C1_canonical_final_product :
    (∀ (F : Type) [CommRing F] (x y : F),
      NthPow.synthesize 11 [x, y] = some (final_state x 11) ∧
      (final_state x 11).rows.length = 12 ∧
      ((final_state x 11).rows[11]?).map Row.c = some (x ^ 12) ∧
      (CellRef.advice Col.colC 11, CellRef.inst 1) ∈ (final_state x 11).copies) ∧
    (NthPow.synthesize 11 [(2 : Fp), 4096] = some (final_state 2 11) ∧
      ((final_state (2 : Fp) 11).rows[11]?).map Row.c = some 4096) := by
  have hgen : ∀ (F : Type) [CommRing F] (x y : F),
      NthPow.synthesize 11 [x, y] = some (final_state x 11) ∧
      (final_state x 11).rows.length = 12 ∧
      ((final_state x 11).rows[11]?).map Row.c = some (x ^ 12) ∧
      (CellRef.advice Col.colC 11, CellRef.inst 1) ∈ (final_state x 11).copies := by
    intro F _ x y
    refine ⟨nthpow_synthesize_eq 11 [x, y] x rfl (by simp), ?_, ?_, ?_⟩
    · simp [final_state_rows]
    · rw [final_state_rows_get x 11 11 (by omega)]
      simp [pow_row]
    · simp [final_state]
  refine ⟨hgen, (hgen Fp 2 4096).1, ?_⟩
  exact ((hgen Fp 2 4096).2.2.1).trans (by decide)

/-- C2: every row of the trace produced by the Witness Assignment Engine (in both
variants: bootstrap row and every chain-step row) has its product cell equal to
the exact field product of that row's left and right cells, with the selector
active at the row. -/
theorem claim_C2_product_rows :
    (∀ (F : Type) [CommRing F] (steps : Nat) (pub : List F) (st : SynthState F),
      NthPow.synthesize steps pub = some st →
      ∀ r ∈ st.rows, r.c = r.a * r.b ∧ r.sel = true) ∧
    (∀ (F : Type) [CommRing F] (pub : List F) (st : SynthState F),
      Ex1.synthesize pub = some st →
      ∀ r ∈ st.rows, r.c = r.a * r.b ∧ r.sel = true) := by
  constructor
  · intro F _ steps pub st h r hr
    obtain ⟨x, h0, h1, rfl⟩ := nthpow_synthesize_inv steps pub st h
    rw [final_state_rows] at hr
    obtain ⟨i, _, rfl⟩ := List.mem_map.mp hr
    exact ⟨pow_succ x i, rfl⟩
  · intro F _ pub st h r hr
    obtain ⟨x0, x1, h0, h1, h2, rfl⟩ := ex1_synthesize_inv pub st h
    have hrows : (ex1_final_state x0 x1).rows = (List.range 4).map (ex1_row x0 x1) := rfl
    rw [hrows] at hr
    obtain ⟨i, _, rfl⟩ := List.mem_map.mp hr
    refine ⟨?_, rfl⟩
    show x0 * x1 ^ (i + 1) = x0 * x1 ^ i * x1
    ring

/-- Witness for C2 at the concrete benchmark instance. -/
theorem claim_C2_product_rows_witness :
    (NthPow.synthesize 11 [(2 : Fp), 4096] = some (final_state 2 11)) ∧
    (∀ r ∈ (final_state (2 : Fp) 11).rows, r.c = r.a * r.b ∧ r.sel = true) :=
  ⟨by decide, claim_C2_product_rows.1 Fp 11 [2, 4096] (final_state 2 11) (by decide)⟩

/-- C3 counterexample: with public input `[2, 5]` the engine still declares the
final public binding, yet the bound cells hold 4096 and 5 — unequal field
values — so the claim that every declared copy constraint relates equal-valued
cells (the engine never declaring one it has not verified) fails. -/
theorem claim_C3_counterexample :
    NthPow.synthesize 11 [(2 : Fp), 5] = some (final_state 2 11) ∧
    (CellRef.advice Col.colC 11, CellRef.inst 1) ∈ (final_state (2 : Fp) 11).copies ∧
    ¬ copy_ok (final_state (2 : Fp) 11).rows [(2 : Fp), 5]
        (CellRef.advice Col.colC 11, CellRef.inst 1) := by
  refine ⟨by decide, by decide, ?_⟩
  intro hok
  have h5 := (final_state_binding_iff (2 : Fp) 5 11).mp hok
  exact absurd h5 (by decide)

/-- C3 amended: every copy constraint declared during assignment except the final
public binding relates cells of equal value, for every public input pair; the
final public binding relates cells of equal value exactly when the supplied
expected-output slot equals `x ^ 12`. -/
theorem claim_C3_amended :
    ∀ (F : Type) [CommRing F] (x y : F),
      NthPow.synthesize 11 [x, y] = some (final_state x 11) ∧
      (∀ p ∈ (final_state x 11).copies.dropLast,
        copy_ok (final_state x 11).rows [x, y] p) ∧
      (copy_ok (final_state x 11).rows [x, y]
          (CellRef.advice Col.colC 11, CellRef.inst 1) ↔ y = x ^ 12) := by
  intro F _ x y
  refine ⟨nthpow_synthesize_eq 11 [x, y] x rfl (by simp), ?_,
    final_state_binding_iff x y 11⟩
  have hc : (final_state x 11).copies =
      ((CellRef.advice Col.colB 0, CellRef.inst 0) :: step_copies 11) ++
        [(CellRef.advice Col.colC 11, CellRef.inst 1)] := rfl
  rw [hc, List.dropLast_concat]
  exact final_state_internal_copies_ok x 11 y

/-- Witness for the amended C3 at the concrete benchmark instance. -/
theorem claim_C3_amended_witness :
    ((CellRef.advice Col.colB 0, CellRef.inst 0) ∈
      (final_state (2 : Fp) 11).copies.dropLast) ∧
    copy_ok (final_state (2 : Fp) 11).rows [(2 : Fp), 4096]
      (CellRef.advice Col.colB 0, CellRef.inst 0) :=
  ⟨by decide, (claim_C3_amended Fp 2 4096).2.1 _ (by decide)⟩

/-- C4: the Public Input Binder declares an equality constraint between the last
chain-step row's product cell and the instance cell at the target slot, and the
constraint system is satisfied by the produced trace together with a public input
vector `[x, y]` if and only if `y = x ^ 12`; for `y ≠ x ^ 12` the constraints are
violated, which is exactly what makes the backend reject the trace or proof. -/
theorem claim_C4_soundness_iff :
    ∀ (F : Type) [CommRing F] (x y : F),
      NthPow.synthesize 11 [x, y] = some (final_state x 11) ∧
      (CellRef.advice Col.colC 11, CellRef.inst 1) ∈ (final_state x 11).copies ∧
      (satisfied (final_state x 11) [x, y] ↔ y = x ^ 12) := by
  intro F _ x y
  refine ⟨nthpow_synthesize_eq 11 [x, y] x rfl (by simp), by simp [final_state], ?_⟩
  constructor
  · intro hsat
    have hb := hsat.2.1 (CellRef.advice Col.colC 11, CellRef.inst 1)
      (by simp [final_state])
    exact (final_state_binding_iff x y 11).mp hb
  · intro hy
    refine ⟨final_state_gates_ok x 11, ?_, final_state_consts_ok x 11 [x, y]⟩
    intro p hp
    have hc : (final_state x 11).copies =
        ((CellRef.advice Col.colB 0, CellRef.inst 0) :: step_copies 11) ++
          [(CellRef.advice Col.colC 11, CellRef.inst 1)] := rfl
    rw [hc] at hp
    rcases List.mem_append.mp hp with hp | hp
    · exact final_state_internal_copies_ok x 11 y p hp
    · rw [List.mem_singleton] at hp
      subst hp
      exact (final_state_binding_iff x y 11).mpr hy

/-- C5: the bootstrap operation of the constant-bootstrap variant assigns the
left cell the literal constant 1, the right cell the public input copied from the
instance column via a copy constraint, and the product cell the in-trace product
`left * right`; it activates the selector at row 0 and returns the three cells. -/
theorem claim_C5_bootstrap_row :
    ∀ (F : Type) [CommRing F] (pub : List F) (x : F),
      pub[0]? = some x → bootstrap_spec F pub x := by
  intro F _ pub x h0
  refine ⟨⟨1, CellRef.advice Col.colA 0⟩, ⟨x, CellRef.advice Col.colB 0⟩,
    ⟨1 * x, CellRef.advice Col.colC 0⟩,
    ⟨[⟨1, x, 1 * x, true⟩], [(CellRef.advice Col.colB 0, CellRef.inst 0)],
      [(CellRef.advice Col.colA 0, 1)]⟩, ?_, rfl, rfl, by simp, rfl, rfl, by simp,
    rfl, rfl, rfl⟩
  simp [NthPow.intial_assign, instance_slot_value, h0, SynthState.empty]

/-- Witness for C5 at the concrete benchmark instance. -/
theorem claim_C5_bootstrap_row_witness :
    (([(2 : Fp), 4096] : List Fp)[0]? = some 2) ∧ bootstrap_spec Fp [2, 4096] 2 :=
  ⟨rfl, claim_C5_bootstrap_row Fp [2, 4096] 2 rfl⟩

/-- C6 counterexample: in the canonical trace, row 2's right cell is not
copy-constrained to row 1's right cell (the previous row) in either orientation;
it is copy-constrained to the bootstrap row's right cell instead. -/
theorem claim_C6_counterexample :
    NthPow.synthesize 11 [(2 : Fp), 4096] = some (final_state 2 11) ∧
    (CellRef.advice Col.colB 2, CellRef.advice Col.colB 1) ∉
      (final_state (2 : Fp) 11).copies ∧
    (CellRef.advice Col.colB 1, CellRef.advice Col.colB 2) ∉
      (final_state (2 : Fp) 11).copies ∧
    (CellRef.advice Col.colB 2, CellRef.advice Col.colB 0) ∈
      (final_state (2 : Fp) 11).copies :=
  ⟨by decide, by decide, by decide, by decide⟩

/-- C6 amended: each chain-step row's left cell is copy-constrained to the
previous row's product cell, and its right cell is copy-constrained to the
bootstrap row's right cell (which is the previous row only for row 1); the
multiplier value in the right column is nevertheless identical across all rows
and equals the bootstrap row's public-input value. -/
theorem claim_C6_amended :
    ∀ (F : Type) [CommRing F] (x y : F) (i : Nat), 1 ≤ i → i ≤ 11 →
      chain_wiring_spec F x y i := by
  intro F _ x y i hi1 hi2
  have e : i - 1 + 1 = i := by omega
  refine ⟨nthpow_synthesize_eq 11 [x, y] x rfl (by simp), ?_, ?_, ?_, ?_⟩
  · have hmem : (CellRef.advice Col.colA i, CellRef.advice Col.colC (i - 1)) ∈
        step_copies 11 := by
      simp only [step_copies, List.mem_flatMap, List.mem_range]
      refine ⟨i - 1, by omega, ?_⟩
      rw [e]
      simp
    simp [final_state, hmem]
  · have hmem : (CellRef.advice Col.colB i, CellRef.advice Col.colB 0) ∈
        step_copies 11 := by
      simp only [step_copies, List.mem_flatMap, List.mem_range]
      refine ⟨i - 1, by omega, ?_⟩
      rw [e]
      simp
    simp [final_state, hmem]
  · intro r hr
    rw [final_state_rows] at hr
    obtain ⟨j, _, rfl⟩ := List.mem_map.mp hr
    rfl
  · rw [final_state_rows_get x 11 0 (by omega)]
    rfl

/-- Witness for the amended C6 at the concrete benchmark instance, row 5. -/
theorem claim_C6_amended_witness :
    (1 ≤ 5 ∧ 5 ≤ 11) ∧ chain_wiring_spec Fp 2 4096 5 :=
  ⟨by decide, claim_C6_amended Fp 2 4096 5 (by decide) (by decide)⟩

/-- C7: circuit configuration registers exactly one gate, the polynomial identity
`selector * (left * right - product)`, which vanishes at a selector-active row
precisely when `product = left * right`; construction takes no runtime input and
returns the finalized column handles. -/
theorem claim_C7_single_gate :
    (Ex1.configure MetaState.empty).2.gates = [("mul", [mul_gate])] ∧
    (Ex1.configure MetaState.empty).1 =
      ⟨ColumnId.adviceCol 0, ColumnId.adviceCol 1, ColumnId.adviceCol 2, 0,
        ColumnId.instanceCol 0⟩ ∧
    (∀ (F : Type) [CommRing F] (row : Row F),
      GateExpr.eval row mul_gate =
        (if row.sel then 1 else 0) * (row.a * row.b - row.c)) ∧
    (∀ (F : Type) [CommRing F] (row : Row F), row.sel = true →
      (GateExpr.eval row mul_gate = 0 ↔ row.a * row.b = row.c)) := by
  refine ⟨rfl, rfl, ?_, ?_⟩
  · intro F _ row
    rfl
  · intro F _ row hsel
    rw [show GateExpr.eval row mul_gate =
      (if row.sel then 1 else 0) * (row.a * row.b - row.c) from rfl, hsel]
    simp [sub_eq_zero]

/-- Witness for C7 at a concrete row. -/
theorem claim_C7_single_gate_witness :
    ((⟨2, 3, 6, true⟩ : Row Fp).sel = true) ∧
    (GateExpr.eval (⟨2, 3, 6, true⟩ : Row Fp) mul_gate = 0 ↔ (2 : Fp) * 3 = 6) :=
  ⟨rfl, claim_C7_single_gate.2.2.2 Fp ⟨2, 3, 6, true⟩ rfl⟩

/-- C8 counterexample: a corrupt setup-parameters file is not regenerated — the
guard only checks `File::open`, so the corrupt file is read and the `expect`
aborts (`none`); a corrupt proof file is likewise reused without regeneration. -/
theorem claim_C8_counterexample :
    load_or_gen_params ArtifactFile.corrupt = none ∧
    load_or_gen_proof ArtifactFile.corrupt = some (ArtifactFile.corrupt, false) :=
  ⟨rfl, rfl⟩

/-- C8 amended: a missing artifact file triggers regeneration; an existing file
is reused without regeneration even when corrupt — a corrupt parameters file
causes a fatal failure at the deserialization step, and a corrupt proof file's
bytes are reused as-is. -/
theorem claim_C8_amended :
    load_or_gen_params ArtifactFile.absent = some (ArtifactFile.wellFormed, true) ∧
    load_or_gen_proof ArtifactFile.absent = some (ArtifactFile.wellFormed, true) ∧
    load_or_gen_params ArtifactFile.wellFormed = some (ArtifactFile.wellFormed, false) ∧
    load_or_gen_proof ArtifactFile.wellFormed = some (ArtifactFile.wellFormed, false) ∧
    load_or_gen_params ArtifactFile.corrupt = none ∧
    load_or_gen_proof ArtifactFile.corrupt = some (ArtifactFile.corrupt, false) :=
  ⟨rfl, rfl, rfl, rfl, rfl, rfl⟩

/-- C9: circuit configuration is a pure constant (no runtime input), and the
synthesis pass produces the same circuit shape — row count, selector layout,
copy constraints, constant constraints — for any two public input vectors, so
keys derived twice from the same parameters and descriptor agree. -/
theorem claim_C9_deterministic_shape :
    (NthPow.configure MetaState.empty =
      (⟨ColumnId.adviceCol 0, ColumnId.adviceCol 1, ColumnId.adviceCol 2, 0,
        ColumnId.instanceCol 0, ColumnId.fixedCol 0⟩,
       ⟨3, 1, 1, 1,
        [ColumnId.adviceCol 0, ColumnId.adviceCol 1, ColumnId.adviceCol 2,
          ColumnId.instanceCol 0, ColumnId.fixedCol 0],
        [ColumnId.fixedCol 0], [("mul", [mul_gate])]⟩)) ∧
    (∀ (F : Type) [CommRing F] (pub1 pub2 : List F),
      2 ≤ pub1.length → 2 ≤ pub2.length →
      ∃ st1 st2, NthPow.synthesize 11 pub1 = some st1 ∧
        NthPow.synthesize 11 pub2 = some st2 ∧
        circuit_shape st1 = circuit_shape st2) := by
  constructor
  · rfl
  · intro F _ pub1 pub2 h1 h2
    have e1 : pub1[0]? = some (pub1.get ⟨0, by omega⟩) :=
      List.getElem?_eq_getElem (by omega)
    have e2 : pub2[0]? = some (pub2.get ⟨0, by omega⟩) :=
      List.getElem?_eq_getElem (by omega)
    exact ⟨final_state (pub1.get ⟨0, by omega⟩) 11,
      final_state (pub2.get ⟨0, by omega⟩) 11,
      nthpow_synthesize_eq 11 pub1 _ e1 (by omega),
      nthpow_synthesize_eq 11 pub2 _ e2 (by omega),
      circuit_shape_final_state _ _ 11⟩

/-- Witness for C9 at two distinct concrete public input vectors. -/
theorem claim_C9_deterministic_shape_witness :
    (2 ≤ ([(2 : Fp), 4096] : List Fp).length) ∧
    (2 ≤ ([(3 : Fp), 7] : List Fp).length) ∧
    (∃ st1 st2, NthPow.synthesize 11 [(2 : Fp), 4096] = some st1 ∧
      NthPow.synthesize 11 [(3 : Fp), 7] = some st2 ∧
      circuit_shape st1 = circuit_shape st2) :=
  ⟨by decide, by decide,
    claim_C9_deterministic_shape.2 Fp [2, 4096] [3, 7] (by decide) (by decide)⟩

/-- C10: synthesis succeeds exactly when the public input vector covers every
instance-column access: at least 3 slots for the instance-bootstrap variant
(reads slots 0 and 1, binds at slot 2) and at least 2 for the constant-bootstrap
variants (reads slot 0, binds at slot 1); with a shorter vector, synthesis
returns an error and no trace is produced. -/
theorem claim_C10_public_input_length :
    (∀ (F : Type) [CommRing F] (pub : List F),
      (Ex1.synthesize pub).isSome ↔ 3 ≤ pub.length) ∧
    (∀ (F : Type) [CommRing F] (steps : Nat) (pub : List F),
      (NthPow.synthesize steps pub).isSome ↔ 2 ≤ pub.length) ∧
    (∀ (F : Type) [CommRing F] (pub : List F),
      pub.length < 3 → Ex1.synthesize pub = none) ∧
    (∀ (F : Type) [CommRing F] (steps : Nat) (pub : List F),
      pub.length < 2 → NthPow.synthesize steps pub = none) := by
  have hex1 : ∀ (F : Type) [CommRing F] (pub : List F),
      (Ex1.synthesize pub).isSome ↔ 3 ≤ pub.length := by
    intro F _ pub
    constructor
    · intro h
      obtain ⟨st, hst⟩ := Option.isSome_iff_exists.mp h
      obtain ⟨x0, x1, _, _, hlen, _⟩ := ex1_synthesize_inv pub st hst
      omega
    · intro h
      have e0 : pub[0]? = some (pub.get ⟨0, by omega⟩) :=
        List.getElem?_eq_getElem (by omega)
      have e1 : pub[1]? = some (pub.get ⟨1, by omega⟩) :=
        List.getElem?_eq_getElem (by omega)
      rw [ex1_synthesize_eq pub _ _ e0 e1 (by omega)]
      rfl
  have hnp : ∀ (F : Type) [CommRing F] (steps : Nat) (pub : List F),
      (NthPow.synthesize steps pub).isSome ↔ 2 ≤ pub.length := by
    intro F _ steps pub
    constructor
    · intro h
      obtain ⟨st, hst⟩ := Option.isSome_iff_exists.mp h
      obtain ⟨x, _, hlen, _⟩ := nthpow_synthesize_inv steps pub st hst
      omega
    · intro h
      have e0 : pub[0]? = some (pub.get ⟨0, by omega⟩) :=
        List.getElem?_eq_getElem (by omega)
      rw [nthpow_synthesize_eq steps pub _ e0 (by omega)]
      rfl
  refine ⟨hex1, hnp, ?_, ?_⟩
  · intro F _ pub h
    cases he : Ex1.synthesize pub with
    | none => rfl
    | some st =>
        exfalso
        have := (hex1 F pub).mp (by rw [he]; rfl)
        omega
  · intro F _ steps pub h
    cases he : NthPow.synthesize steps pub with
    | none => rfl
    | some st =>
        exfalso
        have := (hnp F steps pub).mp (by rw [he]; rfl)
        omega

/-- Witness for C10 at concrete too-short public input vectors. -/
theorem claim_C10_public_input_length_witness :
    (([(1 : Fp), 2] : List Fp).length < 3) ∧ Ex1.synthesize [(1 : Fp), 2] = none ∧
    (([(1 : Fp)] : List Fp).length < 2) ∧ NthPow.synthesize 11 [(1 : Fp)] = none :=
  ⟨by decide, claim_C10_public_input_length.2.2.1 Fp [1, 2] (by decide), by decide,
    claim_C10_public_input_length.2.2.2 Fp 11 [1] (by decide)⟩

end StudyHalo2
